import Mathlib

/-!
A verification development for the LC pupillometry experiment controller.

The Python sources are shallowly embedded: pure scheduling and decision
functions become Lean functions over ℕ/ℤ/ℚ; calls to the random number
generator become explicit oracle arguments (a rational draw for each
comparison against a chance threshold, a natural-number index for each
uniform choice from a list); Python exceptions (IndexError from
random.choice on an empty list, ZeroDivisionError from integer division
by zero) become Option results.
-/

namespace LCPupil

/-! ## Frame clock (calculate_frame_periods.get_nearest_frame)

Durations and refresh rates are embedded as rationals.  Python's round()
rounds half to even, which roundHalfToEven reproduces on ℚ. -/

def roundHalfToEven (q : ℚ) : ℤ :=
  let f := ⌊q⌋
  let r := q - f
  if r < 1/2 then f
  else if 1/2 < r then f + 1
  else if f % 2 = 0 then f else f + 1

def get_nearest_frame (desired_duration_sec : ℚ) (fps : ℚ) : ℤ :=
  if fps ≤ 0 then 0
  else if desired_duration_sec < 0 then 0
  else roundHalfToEven (desired_duration_sec * fps)

/-! ## Block planner (plan_blocks_and_sessions)

create_block's unbounded geometric loop consumes one uniform draw per
iteration; the embedding passes the stream of draws as a finite list and
returns none when the list is exhausted before a draw falls below the
oddball chance (the Python loop simply keeps running in that case, so
every value the Python function actually returns is a some of this
embedding). -/

def create_block_loop (chance_of_oddball : ℚ) : List ℚ → Option (List Char)
  | [] => none
  | rand :: rest =>
    if rand < chance_of_oddball then some (['o'])
    else (create_block_loop chance_of_oddball rest).map (fun b => 's' :: b)

def create_block (min_standards : ℕ) (chance_of_oddball : ℚ) (rands : List ℚ) :
    Option (List Char) :=
  (create_block_loop chance_of_oddball rands).map
    (fun tail => List.replicate min_standards 's' ++ tail)

/-- Phase 1 of populate_session: keep generating blocks while they fit in
the budget.  Each attempted block consumes one entry of the random
source; exhausting the source ends the loop (a fuel artifact: the Python
loop only ever stops on the budget test). -/
def populate_phase1 (max_ses_seconds trial_duration : ℚ) (min_standards : ℕ)
    (chance_of_oddball : ℚ) :
    List (List ℚ) → List (List Char) → ℚ → List (List Char) × ℚ
  | [], session_blocks, estimated_duration => (session_blocks, estimated_duration)
  | rands :: rest, session_blocks, estimated_duration =>
    match create_block min_standards chance_of_oddball rands with
    | none => (session_blocks, estimated_duration)
    | some new_block =>
      let block_duration := (new_block.length : ℚ) * trial_duration
      if estimated_duration + block_duration ≤ max_ses_seconds then
        populate_phase1 max_ses_seconds trial_duration min_standards chance_of_oddball
          rest (session_blocks ++ [new_block]) (estimated_duration + block_duration)
      else
        (session_blocks, estimated_duration)

def populate_session (max_session_time_min attention_duration_sec interim_duration_sec : ℚ)
    (min_standards : ℕ) (chance_of_oddball : ℚ) (rand_src : List (List ℚ)) :
    List (List Char) × ℚ :=
  let max_ses_seconds := max_session_time_min * 60
  let trial_duration := attention_duration_sec + interim_duration_sec
  let phase1 := populate_phase1 max_ses_seconds trial_duration min_standards
    chance_of_oddball rand_src [] 0
  let session_blocks := phase1.1
  let estimated_duration := phase1.2
  let remaining_time := max_ses_seconds - estimated_duration
  let max_final_block_length : ℤ := ⌊remaining_time / trial_duration⌋
  let min_valid_block_length : ℤ := (min_standards : ℤ) + 1
  if min_valid_block_length ≤ max_final_block_length then
    let num_standards_in_final := (max_final_block_length - 1).toNat
    let final_block := List.replicate num_standards_in_final 's' ++ ['o']
    (session_blocks ++ [final_block],
      estimated_duration + (final_block.length : ℚ) * trial_duration)
  else
    (session_blocks, estimated_duration)

/-- Total duration of a list of blocks at a given per-trial duration:
sum over blocks of len(block) * trial_duration. -/
def blocks_total_duration (blocks : List (List Char)) (trial_duration : ℚ) : ℚ :=
  (blocks.map (fun b => (b.length : ℚ) * trial_duration)).sum

/-! ## Letter choice (block_handler.get_letter and trial_logic.get_letter)

random.choice is embedded as selection at an oracle index reduced modulo
the list length; on the empty list it returns none (Python raises
IndexError there). -/

/-- The candidate list built at the top of block_handler.get_letter:
a copy of the distractors, the target appended once when targets are
allowed, and a second copy of the target appended when the delay
countdown is at or below the increase-probability threshold. -/
def possible_letter_choices (allow_target : Bool) (target_letter : String)
    (distractor_letters : List String)
    (increase_target_prob_threshold delay_countdown : ℤ) : List String :=
  if allow_target then
    (distractor_letters ++ [target_letter]) ++
      (if delay_countdown ≤ increase_target_prob_threshold then [target_letter] else [])
  else
    distractor_letters

/-- The candidate list after the avoid-letter step of
block_handler.get_letter: the first occurrence of the previously shown
letter is removed whenever it is present, with no emptiness guard. -/
def final_letter_choices (allow_target : Bool) (target_letter : String)
    (distractor_letters : List String)
    (increase_target_prob_threshold delay_countdown : ℤ)
    (avoid_letter : Option String) : List String :=
  let possible_choices := possible_letter_choices allow_target target_letter
    distractor_letters increase_target_prob_threshold delay_countdown
  match avoid_letter with
  | some a => if a ∈ possible_choices then possible_choices.erase a else possible_choices
  | none => possible_choices

/-- block_handler.get_letter.  The pick argument is the oracle for
random.choice. -/
def get_letter (allow_target : Bool) (target_letter : String)
    (distractor_letters : List String)
    (increase_target_prob_threshold delay_countdown : ℤ)
    (avoid_letter : Option String) (pick : ℕ) : Option String :=
  let final_choices := final_letter_choices allow_target target_letter
    distractor_letters increase_target_prob_threshold delay_countdown avoid_letter
  final_choices.get? (pick % final_choices.length)

/-- The candidate list built at the top of trial_logic.get_letter: the
distractors plus the target appended once when targets are allowed. -/
def tl_possible_choices (allow_targets : Bool) (target_letter : String)
    (distractor_letters : List String) : List String :=
  if allow_targets then distractor_letters ++ [target_letter] else distractor_letters

/-- The candidate list after the guarded avoid-letter step of
trial_logic.get_letter: the avoid letter is removed only when the
removal leaves at least one other option, and an empty candidate list
is rebuilt from the distractors (and target) as a failsafe. -/
def tl_final_choices (allow_targets : Bool) (avoid_letter : Option String)
    (target_letter : String) (distractor_letters : List String) : List String :=
  let possible_choices := tl_possible_choices allow_targets target_letter distractor_letters
  match avoid_letter with
  | some a =>
    if a ∈ possible_choices then
      if 1 < possible_choices.length then possible_choices.erase a else possible_choices
    else if possible_choices.length = 0 then
      tl_possible_choices allow_targets target_letter distractor_letters
    else possible_choices
  | none =>
    if possible_choices.length = 0 then
      tl_possible_choices allow_targets target_letter distractor_letters
    else possible_choices

/-- trial_logic.get_letter: the legacy variant, which guards the
avoid-letter removal and returns "?" instead of failing when no
candidate remains. -/
def tl_get_letter (allow_targets : Bool) (avoid_letter : Option String)
    (target_letter : String) (distractor_letters : List String) (pick : ℕ) : String :=
  let final_choices :=
    tl_final_choices allow_targets avoid_letter target_letter distractor_letters
  match final_choices.get? (pick % final_choices.length) with
  | some l => l
  | none => "?"

/-! ## Attention stimulus selector (block_handler.determine_attention_stimulus) -/

/-- Colours are rgb triples in the psychopy convention; only passed
through, never computed with. -/
abbrev Colour := ℚ × ℚ × ℚ

structure FixationObj where
  color : Colour
  text : String
deriving DecidableEq, Repr

inductive Condition
  | attend
  | divert
deriving DecidableEq, Repr

structure AttnResult where
  fixation_obj : FixationObj
  n_attention_targets : ℕ
  delay_countdown : ℤ
  is_att_target : Bool
  letter_used : String
deriving DecidableEq, Repr

/-- block_handler.determine_attention_stimulus.  rand is the oracle for
random.random() in the attend branch; pick is the oracle for
random.choice inside get_letter in the divert branch.  The divert
branch returns none exactly when get_letter fails (empty candidates). -/
def determine_attention_stimulus
    (condition : Condition) (trial_idx : ℕ) (acceptable_target_idxs : List ℕ)
    (fixation_obj : FixationObj) (norm_colour att_colour : Colour)
    (colour_change_chance : ℚ) (target_letter : String)
    (distractor_letters : List String) (n_attention_targets : ℕ)
    (defined_response_delay delay_countdown : ℤ) (prob_threshold : ℤ)
    (rand : ℚ) (pick : ℕ) : Option AttnResult :=
  match condition with
  | .attend =>
    if trial_idx ∉ acceptable_target_idxs then
      some ⟨{ fixation_obj with color := norm_colour },
        n_attention_targets, delay_countdown - 1, false, ""⟩
    else if 0 < delay_countdown then
      some ⟨{ fixation_obj with color := norm_colour },
        n_attention_targets, delay_countdown - 1, false, ""⟩
    else if rand < colour_change_chance then
      some ⟨{ fixation_obj with color := att_colour },
        n_attention_targets + 1, (defined_response_delay + 1) - 1, true, ""⟩
    else
      some ⟨{ fixation_obj with color := norm_colour },
        n_attention_targets, delay_countdown - 1, false, ""⟩
  | .divert =>
    match (if trial_idx ∉ acceptable_target_idxs then
        get_letter false target_letter distractor_letters prob_threshold
          delay_countdown (some fixation_obj.text) pick
      else if 0 ≤ delay_countdown then
        get_letter false target_letter distractor_letters prob_threshold
          delay_countdown (some fixation_obj.text) pick
      else
        get_letter true target_letter distractor_letters prob_threshold
          delay_countdown (some fixation_obj.text) pick) with
    | none => none
    | some l =>
      if l = target_letter then
        some ⟨{ fixation_obj with text := l },
          n_attention_targets + 1, (2 + 1) - 1, true, l⟩
      else
        some ⟨{ fixation_obj with text := l },
          n_attention_targets, delay_countdown - 1, false, l⟩

/-- The random-oracle inputs of one attend-condition call of the
selector: the trial index, the eligible-index list, and the uniform
draw compared against the colour-change chance. -/
structure AttendCall where
  trial_idx : ℕ
  acceptable_target_idxs : List ℕ
  rand : ℚ
deriving Repr

/-- Iterates attend-condition calls of the selector, threading the
fixation object, target count and countdown, and recording for each
call whether it produced a target. -/
def attend_run (norm_colour att_colour : Colour) (colour_change_chance : ℚ)
    (defined_response_delay : ℤ) :
    List AttendCall → FixationObj → ℕ → ℤ → List Bool
  | [], _, _, _ => []
  | c :: cs, fixation_obj, n_attention_targets, delay_countdown =>
    match determine_attention_stimulus .attend c.trial_idx c.acceptable_target_idxs
        fixation_obj norm_colour att_colour colour_change_chance "" []
        n_attention_targets defined_response_delay delay_countdown 0 c.rand 0 with
    | none => []
    | some r =>
      r.is_att_target ::
        attend_run norm_colour att_colour colour_change_chance defined_response_delay
          cs r.fixation_obj r.n_attention_targets r.delay_countdown

/-! ## Practice gate (run_practice) -/

/-- The expected number of responses computed by run_practice from the
accumulated target count. -/
def expected_responses (practice_condition : Condition) (n_targets : ℕ) : ℕ :=
  match practice_condition with
  | .attend => n_targets
  | .divert => n_targets / 3

def lower_bound (expected : ℕ) (accepted_response_accuracy : ℚ) : ℤ :=
  ⌊(expected : ℚ) * accepted_response_accuracy⌋

def upper_bound (expected : ℕ) (accepted_response_accuracy : ℚ) : ℤ :=
  ⌈(expected : ℚ) * (2 - accepted_response_accuracy)⌉

/-- The pass test of run_practice: lower_bound <= n_responses <= upper_bound. -/
def practice_gate_passes (practice_condition : Condition)
    (n_targets n_responses : ℕ) (accepted_response_accuracy : ℚ) : Bool :=
  let expected := expected_responses practice_condition n_targets
  decide (lower_bound expected accepted_response_accuracy ≤ (n_responses : ℤ)) &&
    decide ((n_responses : ℤ) ≤ upper_bound expected accepted_response_accuracy)

/-! ## Trial/block runner pieces (block_handler.run_block) -/

/-- The two eyetracker message identifiers run_block can emit for a
polled key. -/
inductive KeyMsg
  | key_response
  | unexpected_key_response
deriving DecidableEq, Repr

structure KeyLogEntry where
  msg : KeyMsg
  key : String
  time : ℚ
deriving DecidableEq, Repr

/-- The key-polling loop body of run_block (non-practice path): every
polled key is timestamped into keypress_times; the space key counts as
an attention response and is reported as KEY_RESPONSE; every other key
is reported as UNEXPECTED_KEY_RESPONSE.  There is no branch that stops
the run (the source carries a TODO for an escape option). -/
def process_keys (keys : List (String × ℚ)) (keypress_times : List ℚ)
    (n_attention_responses : ℕ) : List ℚ × ℕ × List KeyLogEntry :=
  match keys with
  | [] => (keypress_times, n_attention_responses, [])
  | (key_name, key_press_time) :: rest =>
    if key_name = "space" then
      let r := process_keys rest (keypress_times ++ [key_press_time])
        (n_attention_responses + 1)
      (r.1, r.2.1, ⟨.key_response, key_name, key_press_time⟩ :: r.2.2)
    else
      let r := process_keys rest (keypress_times ++ [key_press_time])
        n_attention_responses
      (r.1, r.2.1, ⟨.unexpected_key_response, key_name, key_press_time⟩ :: r.2.2)

/-- What one frame of the stimulus-presentation phase of run_block does:
which stimuli were drawn before the flip, the flip (commit) timestamp,
and the MAIN_STIM_OFFSET message payload when one is emitted after the
flip. -/
structure FrameEv where
  frameN : ℕ
  drew_main_stim : Bool
  drew_fixation : Bool
  flip_time : ℚ
  main_stim_offset_msg : Option ℚ
deriving DecidableEq, Repr

/-- The stimulus-phase frame loop of run_block: the main stimulus is
drawn while frameN < main_stim_frames, the fixation object on every
frame; after the flip of frame frameN == main_stim_frames (and only
outside practice mode) the MAIN_STIM_OFFSET message is emitted with
that flip's timestamp. -/
def stim_phase_frames (practice : Bool) (attention_frames main_stim_frames : ℕ)
    (flip_time : ℕ → ℚ) : List FrameEv :=
  (List.range attention_frames).map fun frameN =>
    { frameN := frameN
      drew_main_stim := decide (frameN < main_stim_frames)
      drew_fixation := true
      flip_time := flip_time frameN
      main_stim_offset_msg :=
        if practice = false ∧ frameN = main_stim_frames
        then some (flip_time frameN) else none }

/-- The interim sub-chunk count of run_block:
interim_frames // attention_frames, which in Python raises
ZeroDivisionError when attention_frames == 0. -/
def num_of_subloops (interim_frames attention_frames : ℕ) : Option ℕ :=
  if attention_frames = 0 then none else some (interim_frames / attention_frames)

/-- The per-trial schedule run_block commits to: the stimulus-phase
frames and the number of interim sub-chunks. -/
structure TrialSched where
  stim_frames : List FrameEv
  interim_subloops : ℕ
deriving Repr

/-- The schedule run_block follows over a block: one TrialSched per
trial; none when the interim sub-chunk count divides by zero (which
happens for every trial, so for any non-empty block). -/
def run_block_schedule (block : List Char) (practice : Bool)
    (attention_frames main_stim_frames interim_frames : ℕ)
    (flip_time : ℕ → ℚ) : Option (List TrialSched) :=
  match block with
  | [] => some []
  | _ :: rest =>
    match num_of_subloops interim_frames attention_frames with
    | none => none
    | some n =>
      match run_block_schedule rest practice attention_frames main_stim_frames
          interim_frames flip_time with
      | none => none
      | some tl =>
        some (⟨stim_phase_frames practice attention_frames main_stim_frames flip_time,
          n⟩ :: tl)

/-! ## Theorems -/

/-- C9: the frame clock returns 0 whenever refresh_rate <= 0 or
duration_seconds < 0, and otherwise returns duration * rate rounded to
the nearest integer (half to even); in particular 0 frames for a zero
duration at any positive fps, for any negative duration, and for a zero
refresh rate. -/
theorem get_nearest_frame_spec (desired_duration_sec fps : ℚ) :
    (fps ≤ 0 → get_nearest_frame desired_duration_sec fps = 0) ∧
    (desired_duration_sec < 0 → get_nearest_frame desired_duration_sec fps = 0) ∧
    (0 < fps → 0 ≤ desired_duration_sec →
      get_nearest_frame desired_duration_sec fps =
        roundHalfToEven (desired_duration_sec * fps)) ∧
    (0 < fps → get_nearest_frame 0 fps = 0) ∧
    get_nearest_frame desired_duration_sec 0 = 0 := by
  refine ⟨?_, ?_, ?_, ?_, ?_⟩
  · intro h
    simp [get_nearest_frame, h]
  · intro h
    by_cases hf : fps ≤ 0
    · simp [get_nearest_frame, hf]
    · simp [get_nearest_frame, hf, h]
  · intro hf hd
    rw [get_nearest_frame, if_neg (by linarith), if_neg (by linarith)]
  · intro hf
    rw [get_nearest_frame, if_neg (by linarith), if_neg (by norm_num), zero_mul]
    norm_num [roundHalfToEven]
  · simp [get_nearest_frame]

theorem get_nearest_frame_spec_witness :
    ((0:ℚ) ≤ 0 ∧ get_nearest_frame 1 0 = 0) ∧
    ((-1:ℚ) < 0 ∧ get_nearest_frame (-1) 1 = 0) ∧
    ((0:ℚ) < 1 ∧ (0:ℚ) ≤ 1 ∧ get_nearest_frame 1 1 = roundHalfToEven (1 * 1)) ∧
    ((0:ℚ) < 1 ∧ get_nearest_frame 0 1 = 0) :=
  ⟨⟨by decide, (get_nearest_frame_spec 1 0).1 (by decide)⟩,
   ⟨by decide, (get_nearest_frame_spec (-1) 1).2.1 (by decide)⟩,
   ⟨by decide, by decide, (get_nearest_frame_spec 1 1).2.2.1 (by decide) (by decide)⟩,
   ⟨by decide, (get_nearest_frame_spec 0 1).2.2.2.1 (by decide)⟩⟩

/-- C7: evaluation of the key-handling loop of block_handler.run_block
at an escape press followed by a space press.  The escape press is
recorded as an UNEXPECTED_KEY_RESPONSE and processing continues to the
subsequent key; no branch of the loop invokes any termination routine
(the source only carries a TODO for an escape option), contradicting
the claim that an abort key unwinds the run. -/
theorem run_block_escape_key_continues :
    process_keys [("escape", 5), ("space", 6)] [] 0 =
      ([5, 6], 1,
        [⟨.unexpected_key_response, "escape", 5⟩, ⟨.key_response, "space", 6⟩]) := by
  decide

/-- C1 counterexample: with the default threshold -4, the divert-side
eligibility gate is open at countdown -1 (targets are allowed there),
yet the candidate set built by get_letter contains the target letter
only once, not twice. -/
theorem divert_double_target_counterexample :
    ((-1 : ℤ) < 0) ∧
    (possible_letter_choices true "X" ["Z", "L", "N", "T"] (-4) (-1)).count "X" = 1 := by
  decide

/-- C1 (amended): in the divert condition the candidate set is the
distractor letters plus the target appended once, with a second copy of
the target appended exactly when the countdown is at or below the
increase-probability threshold; under the default threshold -4 the
candidate set contains the target twice only on gate-open calls whose
countdown is at most -4, and exactly once on open calls with countdown
in {-1, -2, -3}. -/
theorem divert_candidate_set_spec (target_letter : String)
    (distractor_letters : List String)
    (increase_target_prob_threshold delay_countdown : ℤ)
    (hT : target_letter ∉ distractor_letters) :
    (possible_letter_choices true target_letter distractor_letters
        increase_target_prob_threshold delay_countdown).count target_letter =
      (if delay_countdown ≤ increase_target_prob_threshold then 2 else 1) ∧
    (increase_target_prob_threshold = -4 → delay_countdown < 0 →
      ((possible_letter_choices true target_letter distractor_letters
          increase_target_prob_threshold delay_countdown).count target_letter = 2 ↔
        delay_countdown ≤ -4)) := by
  have hcount : (possible_letter_choices true target_letter distractor_letters
      increase_target_prob_threshold delay_countdown).count target_letter =
      (if delay_countdown ≤ increase_target_prob_threshold then 2 else 1) := by
    rw [possible_letter_choices, if_pos rfl]
    rw [List.count_append, List.count_append]
    rw [List.count_eq_zero.mpr hT]
    by_cases h : delay_countdown ≤ increase_target_prob_threshold
    · simp [h]
    · simp [h]
  refine ⟨hcount, ?_⟩
  intro hthr _
  rw [hcount, hthr]
  by_cases h : delay_countdown ≤ -4
  · simp [h]
  · simp [h]

theorem divert_candidate_set_spec_witness :
    "X" ∉ ["Z", "L", "N", "T"] ∧
    ((possible_letter_choices true "X" ["Z", "L", "N", "T"] (-4) (-5)).count "X" =
        (if (-5 : ℤ) ≤ -4 then 2 else 1) ∧
      ((-4 : ℤ) = -4 → (-5 : ℤ) < 0 →
        ((possible_letter_choices true "X" ["Z", "L", "N", "T"] (-4) (-5)).count "X" = 2 ↔
          (-5 : ℤ) ≤ -4))) :=
  ⟨by decide, divert_candidate_set_spec "X" ["Z", "L", "N", "T"] (-4) (-5) (by decide)⟩

/-- C10: run_block is total only when attention_frames >= 1: with
attention_frames == 0 the interim sub-chunk count
interim_frames // attention_frames divides by zero, so the schedule of
any non-empty block fails, while any positive attention_frames yields a
schedule; and the frame clock produces the value 0 for every degenerate
(non-positive rate or negative duration) configuration. -/
theorem run_block_zero_attention_frames (block : List Char) (practice : Bool)
    (main_stim_frames interim_frames : ℕ) (flip_time : ℕ → ℚ) :
    (block ≠ [] →
      run_block_schedule block practice 0 main_stim_frames interim_frames flip_time =
        none) ∧
    (∀ attention_frames, 0 < attention_frames →
      run_block_schedule block practice attention_frames main_stim_frames interim_frames
          flip_time =
        some (block.map fun _ =>
          ⟨stim_phase_frames practice attention_frames main_stim_frames flip_time,
            interim_frames / attention_frames⟩)) ∧
    (∀ (d fps : ℚ), fps ≤ 0 ∨ d < 0 → get_nearest_frame d fps = 0) := by
  refine ⟨?_, ?_, ?_⟩
  · intro hb
    match block, hb with
    | c :: rest, _ =>
      simp [run_block_schedule, num_of_subloops]
  · intro af haf
    have hne : af ≠ 0 := Nat.pos_iff_ne_zero.mp haf
    induction block with
    | nil => simp [run_block_schedule]
    | cons c rest ih =>
      simp only [run_block_schedule, num_of_subloops, if_neg hne, ih, List.map_cons]
  · intro d fps h
    rcases h with h | h
    · simp [get_nearest_frame, h]
    · by_cases hf : fps ≤ 0
      · simp [get_nearest_frame, hf]
      · simp [get_nearest_frame, hf, h]

theorem run_block_zero_attention_frames_witness :
    (['s'] : List Char) ≠ [] ∧ 0 < 1 ∧ ((0:ℚ) ≤ 0 ∨ (0:ℚ) < 0) ∧
    (run_block_schedule ['s'] false 0 3 10 (fun _ => 0) = none ∧
      run_block_schedule ['s'] false 1 3 10 (fun _ => 0) =
        some (['s'].map fun _ =>
          ⟨stim_phase_frames false 1 3 (fun _ => 0), 10 / 1⟩) ∧
      get_nearest_frame 0 0 = 0) :=
  ⟨by decide, by decide, Or.inl (by decide),
    (run_block_zero_attention_frames ['s'] false 3 10 (fun _ => 0)).1 (by decide),
    (run_block_zero_attention_frames ['s'] false 3 10 (fun _ => 0)).2.1 1 (by decide),
    (run_block_zero_attention_frames ['s'] false 3 10 (fun _ => 0)).2.2 0 0
      (Or.inl (by decide))⟩

theorem countP_range_eq_target (mf : ℕ) :
    ∀ af, (List.range af).countP (fun n => decide (n = mf)) =
      if mf < af then 1 else 0 := by
  intro af
  induction af with
  | zero => simp
  | succ k ih =>
    rw [List.range_succ, List.countP_append, ih]
    by_cases h1 : mf < k
    · rw [if_pos h1, if_pos (by omega)]
      simp
      omega
    · rw [if_neg h1]
      by_cases h2 : k = mf
      · subst h2
        simp
      · rw [if_neg (by omega)]
        simp [h2]

/-- C8: in the stimulus phase of run_block the primary stimulus is
drawn only on frames with frameN < main_stim_frames while the
attention probe is drawn on every frame; the MAIN_STIM_OFFSET marker is
emitted exactly once per trial, at the commit whose
frameN == main_stim_frames, carrying that commit's flip timestamp, and
fires iff main_stim_frames < attention_frames; concretely with
attention_frames = 5 and main_stim_frames = 3 the stimulus is drawn on
frames 0-2 only and the marker fires at frame index 3. -/
theorem stim_phase_spec (attention_frames main_stim_frames : ℕ) (flip_time : ℕ → ℚ) :
    (∀ ev ∈ stim_phase_frames false attention_frames main_stim_frames flip_time,
      (ev.drew_main_stim = true ↔ ev.frameN < main_stim_frames) ∧
        ev.drew_fixation = true ∧ ev.flip_time = flip_time ev.frameN) ∧
    ((stim_phase_frames false attention_frames main_stim_frames flip_time).countP
        (fun ev => ev.main_stim_offset_msg.isSome) =
      if main_stim_frames < attention_frames then 1 else 0) ∧
    (∀ ev ∈ stim_phase_frames false attention_frames main_stim_frames flip_time,
      ∀ t, ev.main_stim_offset_msg = some t →
        ev.frameN = main_stim_frames ∧ t = flip_time main_stim_frames) ∧
    ((stim_phase_frames false 5 3 flip_time).map (fun ev => ev.drew_main_stim) =
      [true, true, true, false, false]) ∧
    (((stim_phase_frames false 5 3 flip_time).filter
        (fun ev => ev.main_stim_offset_msg.isSome)).map (fun ev => ev.frameN) = [3]) := by
  refine ⟨?_, ?_, ?_, ?_, ?_⟩
  · intro ev hev
    simp only [stim_phase_frames, List.mem_map, List.mem_range] at hev
    obtain ⟨n, hn, rfl⟩ := hev
    simp
  · rw [stim_phase_frames, List.countP_map]
    rw [show ((fun ev => ev.main_stim_offset_msg.isSome) ∘ fun frameN =>
        (⟨frameN, decide (frameN < main_stim_frames), true, flip_time frameN,
          if false = false ∧ frameN = main_stim_frames
          then some (flip_time frameN) else none⟩ : FrameEv)) =
        fun n => decide (n = main_stim_frames) from by
      funext n
      by_cases h : n = main_stim_frames <;> simp [h]]
    exact countP_range_eq_target main_stim_frames attention_frames
  · intro ev hev t ht
    simp only [stim_phase_frames, List.mem_map, List.mem_range] at hev
    obtain ⟨n, hn, rfl⟩ := hev
    simp only at ht
    by_cases h : n = main_stim_frames
    · subst h
      simp at ht
      simp [← ht]
    · simp [h] at ht
  · rfl
  · rfl

theorem stim_phase_spec_witness :
    ((⟨3, false, true, 0, some 0⟩ : FrameEv) ∈
        stim_phase_frames false 5 3 (fun _ => 0)) ∧
    ((⟨3, false, true, 0, some 0⟩ : FrameEv).main_stim_offset_msg = some 0) ∧
    (((⟨3, false, true, 0, some 0⟩ : FrameEv).drew_main_stim = true ↔
        (⟨3, false, true, 0, some 0⟩ : FrameEv).frameN < 3) ∧
      (⟨3, false, true, 0, some 0⟩ : FrameEv).drew_fixation = true ∧
      (⟨3, false, true, 0, some 0⟩ : FrameEv).flip_time =
        (fun _ => (0:ℚ)) (⟨3, false, true, 0, some 0⟩ : FrameEv).frameN) ∧
    ((⟨3, false, true, 0, some 0⟩ : FrameEv).frameN = 3 ∧
      (0:ℚ) = (fun _ => (0:ℚ)) 3) :=
  ⟨by decide, by decide,
    (stim_phase_spec 5 3 (fun _ => 0)).1 ⟨3, false, true, 0, some 0⟩ (by decide),
    (stim_phase_spec 5 3 (fun _ => 0)).2.2.1 ⟨3, false, true, 0, some 0⟩ (by decide)
      0 (by decide)⟩

/-- C6: the practice gate passes iff
lower <= observed <= upper with expected = targets in the attend
condition and expected = targets / 3 (integer division) in the divert
condition, lower = floor(expected * accuracy) and
upper = ceil(expected * (2 - accuracy)); for targets = 10 and
accuracy = 7/10 in the attend condition, lower = 7 and upper = 13, so
8 observed responses pass and 15 fail. -/
theorem practice_gate_spec :
    (∀ (cond : Condition) (n_targets n_responses : ℕ) (acc : ℚ),
      practice_gate_passes cond n_targets n_responses acc = true ↔
        ⌊(expected_responses cond n_targets : ℚ) * acc⌋ ≤ (n_responses : ℤ) ∧
          (n_responses : ℤ) ≤ ⌈(expected_responses cond n_targets : ℚ) * (2 - acc)⌉) ∧
    expected_responses .attend 10 = 10 ∧
    expected_responses .divert 10 = 3 ∧
    lower_bound 10 (7/10) = 7 ∧
    upper_bound 10 (7/10) = 13 ∧
    practice_gate_passes .attend 10 8 (7/10) = true ∧
    practice_gate_passes .attend 10 15 (7/10) = false := by
  have hiff : ∀ (cond : Condition) (n_targets n_responses : ℕ) (acc : ℚ),
      practice_gate_passes cond n_targets n_responses acc = true ↔
        ⌊(expected_responses cond n_targets : ℚ) * acc⌋ ≤ (n_responses : ℤ) ∧
          (n_responses : ℤ) ≤ ⌈(expected_responses cond n_targets : ℚ) * (2 - acc)⌉ := by
    intro cond nt nr acc
    simp [practice_gate_passes, lower_bound, upper_bound]
  have hexp : expected_responses Condition.attend 10 = 10 := rfl
  have hl : lower_bound 10 (7/10) = 7 := by
    rw [lower_bound]
    rw [show ((10:ℕ):ℚ) * (7/10) = ((7:ℤ):ℚ) by norm_num]
    exact Int.floor_intCast 7
  have hu : upper_bound 10 (7/10) = 13 := by
    rw [upper_bound]
    rw [show ((10:ℕ):ℚ) * (2 - 7/10) = ((13:ℤ):ℚ) by norm_num]
    exact Int.ceil_intCast 13
  refine ⟨hiff, hexp, rfl, hl, hu, ?_, ?_⟩
  · rw [hiff]
    constructor
    · rw [show ⌊(expected_responses Condition.attend 10 : ℚ) * (7/10)⌋ =
          lower_bound (expected_responses Condition.attend 10) (7/10) from rfl,
        hexp, hl]
      norm_num
    · rw [show ⌈(expected_responses Condition.attend 10 : ℚ) * (2 - 7/10)⌉ =
          upper_bound (expected_responses Condition.attend 10) (7/10) from rfl,
        hexp, hu]
      norm_num
  · rw [Bool.eq_false_iff]
    intro hc
    rw [hiff] at hc
    have := hc.2
    rw [show ⌈(expected_responses Condition.attend 10 : ℚ) * (2 - 7/10)⌉ =
        upper_bound (expected_responses Condition.attend 10) (7/10) from rfl,
      hexp, hu] at this
    norm_num at this

theorem create_block_loop_shape (chance : ℚ) :
    ∀ (rands : List ℚ) (t : List Char), create_block_loop chance rands = some t →
      ∃ k, t = List.replicate k 's' ++ ['o'] := by
  intro rands
  induction rands with
  | nil =>
    intro t ht
    simp [create_block_loop] at ht
  | cons r rest ih =>
    intro t ht
    rw [create_block_loop] at ht
    by_cases h : r < chance
    · rw [if_pos h] at ht
      refine ⟨0, ?_⟩
      simp at ht
      simp [← ht]
    · rw [if_neg h] at ht
      match hrec : create_block_loop chance rest with
      | none =>
        rw [hrec] at ht
        simp at ht
      | some b =>
        rw [hrec] at ht
        simp at ht
        obtain ⟨k, hk⟩ := ih b hrec
        refine ⟨k + 1, ?_⟩
        rw [← ht, hk, List.replicate_succ]
        simp

/-- C5: for all min_standards and oddball chances in (0,1], every block
create_block returns starts with min_standards STANDARD entries, is
longer than min_standards, ends in an ODDBALL which is the only one in
the block, and every non-final entry is a STANDARD (so in particular no
ODDBALL occurs before index min_standards). -/
theorem create_block_spec (min_standards : ℕ) (chance_of_oddball : ℚ)
    (rands : List ℚ) (b : List Char)
    (hc0 : 0 < chance_of_oddball) (hc1 : chance_of_oddball ≤ 1)
    (hb : create_block min_standards chance_of_oddball rands = some b) :
    b.take min_standards = List.replicate min_standards 's' ∧
    min_standards < b.length ∧
    b.getLast? = some 'o' ∧
    b.count 'o' = 1 ∧
    (∀ i, i + 1 < b.length → b.get? i = some 's') := by
  rw [create_block] at hb
  match hloop : create_block_loop chance_of_oddball rands with
  | none =>
    rw [hloop] at hb
    simp at hb
  | some t =>
    rw [hloop] at hb
    simp at hb
    obtain ⟨k, hk⟩ := create_block_loop_shape chance_of_oddball rands t hloop
    have hbm : b = List.replicate (min_standards + k) 's' ++ ['o'] := by
      rw [← hb, hk, List.replicate_add, List.append_assoc]
    subst hbm
    have hlen : (List.replicate (min_standards + k) 's' ++ ['o']).length =
        min_standards + k + 1 := by simp
    refine ⟨?_, ?_, ?_, ?_, ?_⟩
    · rw [List.take_append_of_le_length (by rw [List.length_replicate]; omega),
        List.take_replicate, min_eq_left (by omega)]
    · rw [hlen]; omega
    · exact List.getLast?_concat _
    · rw [List.count_append, List.count_replicate]
      simp
    · intro i hi
      rw [hlen] at hi
      rw [List.get?_eq_getElem?,
        List.getElem?_append_left (by rw [List.length_replicate]; omega),
        List.getElem?_eq_getElem (by rw [List.length_replicate]; omega)]
      simp

theorem create_block_spec_witness :
    (0:ℚ) < 1 ∧ (1:ℚ) ≤ 1 ∧ create_block 2 1 [0] = some (['s', 's', 'o']) ∧
    ((['s', 's', 'o'] : List Char).take 2 = List.replicate 2 's' ∧
      2 < (['s', 's', 'o'] : List Char).length ∧
      (['s', 's', 'o'] : List Char).getLast? = some 'o' ∧
      (['s', 's', 'o'] : List Char).count 'o' = 1 ∧
      (∀ i, i + 1 < (['s', 's', 'o'] : List Char).length →
        (['s', 's', 'o'] : List Char).get? i = some 's')) :=
  ⟨by decide, by decide, by decide,
    create_block_spec 2 1 [0] ['s', 's', 'o'] (by decide) (by decide) (by decide)⟩

theorem pick_mem_of_ne_nil (l : List String) (pick : ℕ) (h : l ≠ []) :
    ∃ x, l.get? (pick % l.length) = some x ∧ x ∈ l := by
  have hlen : 0 < l.length := List.length_pos.mpr h
  have hm : pick % l.length < l.length := Nat.mod_lt pick hlen
  exact ⟨l.get ⟨pick % l.length, hm⟩, List.get?_eq_get hm, List.get_mem l _ hm⟩

/-- C3 counterexample: block_handler.get_letter applied to the
non-empty candidate set ["Z"] with avoid letter "Z" removes the avoid
letter even though removal leaves no other option, empties the
candidate set, and returns no letter at all (Python raises IndexError
in random.choice). -/
theorem get_letter_empty_counterexample :
    possible_letter_choices false "X" ["Z"] (-4) 0 ≠ [] ∧
    get_letter false "X" ["Z"] (-4) 0 (some "Z") 0 = none := by
  decide

/-- C3 (amended): block_handler.get_letter removes the previously shown
letter whenever it is present, with no emptiness guard; whenever the
candidate set after that removal is non-empty the function returns a
letter from it (and the returned letter differs from the avoid letter
whenever the avoid letter occurred at most once among the candidates),
but when the removal empties the set the call fails instead of
repeating the prior letter.  The guard described by the claim is
implemented only in the legacy trial_logic.get_letter, which always
returns a member of any non-empty candidate set. -/
theorem get_letter_spec (allow_target : Bool) (target_letter : String)
    (distractor_letters : List String)
    (increase_target_prob_threshold delay_countdown : ℤ)
    (avoid_letter : Option String) (pick : ℕ) :
    (final_letter_choices allow_target target_letter distractor_letters
        increase_target_prob_threshold delay_countdown avoid_letter ≠ [] →
      ∃ l, get_letter allow_target target_letter distractor_letters
          increase_target_prob_threshold delay_countdown avoid_letter pick = some l ∧
        l ∈ final_letter_choices allow_target target_letter distractor_letters
          increase_target_prob_threshold delay_countdown avoid_letter) ∧
    (∀ a l, avoid_letter = some a →
      (possible_letter_choices allow_target target_letter distractor_letters
          increase_target_prob_threshold delay_countdown).count a ≤ 1 →
      get_letter allow_target target_letter distractor_letters
          increase_target_prob_threshold delay_countdown avoid_letter pick = some l →
      l ≠ a) ∧
    (∀ (allow2 : Bool) (av2 : Option String) (t2 : String) (ds2 : List String)
        (pick2 : ℕ),
      tl_possible_choices allow2 t2 ds2 ≠ [] →
      tl_get_letter allow2 av2 t2 ds2 pick2 ∈ tl_possible_choices allow2 t2 ds2) := by
  refine ⟨?_, ?_, ?_⟩
  · intro hne
    obtain ⟨x, hx, hmem⟩ := pick_mem_of_ne_nil _ pick hne
    exact ⟨x, by rw [get_letter]; exact hx, hmem⟩
  · intro a l ha hcount hget
    subst ha
    rw [get_letter] at hget
    have hmem : l ∈ final_letter_choices allow_target target_letter distractor_letters
        increase_target_prob_threshold delay_countdown (some a) :=
      List.get?_mem hget
    rw [final_letter_choices] at hmem
    intro hla
    subst hla
    by_cases hin : l ∈ possible_letter_choices allow_target target_letter
        distractor_letters increase_target_prob_threshold delay_countdown
    · rw [if_pos hin] at hmem
      have h1 : 0 < (possible_letter_choices allow_target target_letter
          distractor_letters increase_target_prob_threshold delay_countdown).count l :=
        List.count_pos_iff.mpr hin
      have h0 : ((possible_letter_choices allow_target target_letter distractor_letters
          increase_target_prob_threshold delay_countdown).erase l).count l =
          (possible_letter_choices allow_target target_letter distractor_letters
            increase_target_prob_threshold delay_countdown).count l - 1 :=
        List.count_erase_self l _
      have h2 : 0 < ((possible_letter_choices allow_target target_letter
          distractor_letters increase_target_prob_threshold delay_countdown).erase
            l).count l :=
        List.count_pos_iff.mpr hmem
      omega
    · rw [if_neg hin] at hmem
      exact hin hmem
  · intro allow2 av2 t2 ds2 pick2 hne
    have hsub : tl_final_choices allow2 av2 t2 ds2 ≠ [] ∧
        ∀ x ∈ tl_final_choices allow2 av2 t2 ds2, x ∈ tl_possible_choices allow2 t2 ds2 := by
      rcases av2 with _ | a
      · rw [tl_final_choices]
        rw [if_neg (by simpa [List.length_eq_zero] using hne)]
        exact ⟨hne, fun x hx => hx⟩
      · rw [tl_final_choices]
        by_cases hin : a ∈ tl_possible_choices allow2 t2 ds2
        · rw [if_pos hin]
          by_cases hlen : 1 < (tl_possible_choices allow2 t2 ds2).length
          · rw [if_pos hlen]
            refine ⟨?_, fun x hx => List.mem_of_mem_erase hx⟩
            intro hcon
            have := List.length_erase_of_mem hin
            rw [hcon] at this
            simp at this
            omega
          · rw [if_neg hlen]
            exact ⟨hne, fun x hx => hx⟩
        · rw [if_neg hin, if_neg (by simpa [List.length_eq_zero] using hne)]
          exact ⟨hne, fun x hx => hx⟩
    obtain ⟨x, hx, hmem⟩ := pick_mem_of_ne_nil _ pick2 hsub.1
    rw [tl_get_letter, hx]
    exact hsub.2 x hmem

theorem get_letter_spec_witness :
    (final_letter_choices false "X" ["Z", "L", "N", "T"] (-4) 0 (some "Z") ≠ [] ∧
      (∃ l, get_letter false "X" ["Z", "L", "N", "T"] (-4) 0 (some "Z") 0 = some l ∧
        l ∈ final_letter_choices false "X" ["Z", "L", "N", "T"] (-4) 0 (some "Z"))) ∧
    (some "Z" = some "Z" ∧
      (possible_letter_choices false "X" ["Z", "L", "N", "T"] (-4) 0).count "Z" ≤ 1 ∧
      get_letter false "X" ["Z", "L", "N", "T"] (-4) 0 (some "Z") 0 = some "L" ∧
      "L" ≠ "Z") ∧
    (tl_possible_choices true "X" ["Z"] ≠ [] ∧
      tl_get_letter true (some "Z") "X" ["Z"] 0 ∈ tl_possible_choices true "X" ["Z"]) :=
  ⟨⟨by decide,
    (get_letter_spec false "X" ["Z", "L", "N", "T"] (-4) 0 (some "Z") 0).1 (by decide)⟩,
   ⟨rfl, by decide, by decide,
    (get_letter_spec false "X" ["Z", "L", "N", "T"] (-4) 0 (some "Z") 0).2.1 "Z" "L"
      rfl (by decide) (by decide)⟩,
   ⟨by decide,
    (get_letter_spec false "X" ["Z", "L", "N", "T"] (-4) 0 (some "Z") 0).2.2 true
      (some "Z") "X" ["Z"] 0 (by decide)⟩⟩

theorem attend_blocked_step (trial_idx : ℕ) (acceptable : List ℕ) (fx : FixationObj)
    (norm_colour att_colour : Colour) (chance : ℚ) (target : String) (ds : List String)
    (n : ℕ) (d cd thr : ℤ) (rand : ℚ) (pick : ℕ) (hcd : 0 < cd) :
    determine_attention_stimulus .attend trial_idx acceptable fx norm_colour att_colour
        chance target ds n d cd thr rand pick =
      some ⟨{ fx with color := norm_colour }, n, cd - 1, false, ""⟩ := by
  rw [determine_attention_stimulus]
  by_cases h : trial_idx ∉ acceptable
  · rw [if_pos h]
  · rw [if_neg h, if_pos hcd]

theorem attend_run_blocked (norm_colour att_colour : Colour) (chance : ℚ) (d : ℤ) :
    ∀ (cs : List AttendCall) (fx : FixationObj) (n : ℕ) (cd : ℤ),
      (cs.length : ℤ) ≤ cd →
      ∀ b ∈ attend_run norm_colour att_colour chance d cs fx n cd, b = false := by
  intro cs
  induction cs with
  | nil =>
    intro fx n cd h b hb
    simp [attend_run] at hb
  | cons c rest ih =>
    intro fx n cd h b hb
    have hlen : ((c :: rest).length : ℤ) = (rest.length : ℤ) + 1 := by
      rw [List.length_cons]
      push_cast
      ring
    have hcd : 0 < cd := by
      rw [hlen] at h
      have : (0 : ℤ) ≤ (rest.length : ℤ) := Int.natCast_nonneg _
      omega
    rw [attend_run, attend_blocked_step c.trial_idx c.acceptable_target_idxs fx
      norm_colour att_colour chance "" [] n d cd 0 c.rand 0 hcd] at hb
    rcases List.mem_cons.mp hb with h1 | h2
    · exact h1
    · refine ih _ _ _ ?_ b h2
      show (rest.length : ℤ) ≤ cd - 1
      rw [hlen] at h
      omega

/-- C2: every call of determine_attention_stimulus decrements the
returned countdown by exactly one after the target decision (the reset
value being defined_response_delay + 1 in the attend condition and
2 + 1 in the divert condition), so an attend-condition call that
produces a target returns countdown defined_response_delay, and once
the countdown is reset to V = defined_response_delay + 1 no target can
be produced on any of the next V - 1 calls. -/
theorem countdown_decrement_spec (trial_idx : ℕ) (acceptable : List ℕ)
    (fx : FixationObj) (norm_colour att_colour : Colour) (chance : ℚ)
    (target : String) (ds : List String) (n : ℕ)
    (defined_response_delay cd thr : ℤ) (rand : ℚ) (pick : ℕ) :
    (∀ r, determine_attention_stimulus .attend trial_idx acceptable fx norm_colour
        att_colour chance target ds n defined_response_delay cd thr rand pick = some r →
      r.delay_countdown =
        (if r.is_att_target then defined_response_delay + 1 else cd) - 1) ∧
    (∀ r, determine_attention_stimulus .divert trial_idx acceptable fx norm_colour
        att_colour chance target ds n defined_response_delay cd thr rand pick = some r →
      r.delay_countdown = (if r.is_att_target then 2 + 1 else cd) - 1) ∧
    (∀ r, determine_attention_stimulus .attend trial_idx acceptable fx norm_colour
        att_colour chance target ds n defined_response_delay cd thr rand pick = some r →
      r.is_att_target = true →
      r.delay_countdown = defined_response_delay ∧
      ∀ (cs : List AttendCall) (fx2 : FixationObj) (n2 : ℕ),
        (cs.length : ℤ) ≤ defined_response_delay →
        ∀ b ∈ attend_run norm_colour att_colour chance defined_response_delay cs fx2 n2
            r.delay_countdown, b = false) := by
  have hattend : ∀ r, determine_attention_stimulus .attend trial_idx acceptable fx
      norm_colour att_colour chance target ds n defined_response_delay cd thr rand
      pick = some r →
      r.delay_countdown =
        (if r.is_att_target then defined_response_delay + 1 else cd) - 1 := by
    intro r hr
    rw [determine_attention_stimulus] at hr
    by_cases h1 : trial_idx ∉ acceptable
    · rw [if_pos h1] at hr
      cases hr
      simp
    · rw [if_neg h1] at hr
      by_cases h2 : 0 < cd
      · rw [if_pos h2] at hr
        cases hr
        simp
      · rw [if_neg h2] at hr
        by_cases h3 : rand < chance
        · rw [if_pos h3] at hr
          cases hr
          simp
        · rw [if_neg h3] at hr
          cases hr
          simp
  refine ⟨hattend, ?_, ?_⟩
  · intro r hr
    rw [determine_attention_stimulus] at hr
    rcases hgl : (if trial_idx ∉ acceptable then
        get_letter false target ds thr cd (some fx.text) pick
      else if 0 ≤ cd then
        get_letter false target ds thr cd (some fx.text) pick
      else
        get_letter true target ds thr cd (some fx.text) pick) with _ | l
    · rw [hgl] at hr
      simp at hr
    · rw [hgl] at hr
      dsimp only at hr
      by_cases h4 : l = target
      · rw [if_pos h4] at hr
        cases hr
        simp
      · rw [if_neg h4] at hr
        cases hr
        simp
  · intro r hr htgt
    have hcdr := hattend r hr
    rw [htgt, if_pos rfl] at hcdr
    have hval : r.delay_countdown = defined_response_delay := by omega
    exact ⟨hval, fun cs fx2 n2 hlen b hb =>
      attend_run_blocked norm_colour att_colour chance defined_response_delay cs fx2 n2
        r.delay_countdown (by rw [hval]; exact hlen) b hb⟩

theorem countdown_decrement_spec_witness :
    (determine_attention_stimulus .attend 1 [1] ⟨(0, 0, 0), "Z"⟩ (0, 0, 0) (0, 0, 1) 1
        "X" ["Z", "L", "N", "T"] 0 2 0 (-4) 0 0 =
      some ⟨⟨(0, 0, 1), "Z"⟩, 1, 2, true, ""⟩) ∧
    ((⟨⟨(0, 0, 1), "Z"⟩, 1, 2, true, ""⟩ : AttnResult).delay_countdown =
      (if (⟨⟨(0, 0, 1), "Z"⟩, 1, 2, true, ""⟩ : AttnResult).is_att_target
        then 2 + 1 else 0) - 1) ∧
    (determine_attention_stimulus .divert 1 [1] ⟨(0, 0, 0), "Z"⟩ (0, 0, 0) (0, 0, 1) 1
        "X" ["Z", "L", "N", "T"] 0 2 0 (-4) 0 0 =
      some ⟨⟨(0, 0, 0), "L"⟩, 0, -1, false, "L"⟩) ∧
    ((⟨⟨(0, 0, 0), "L"⟩, 0, -1, false, "L"⟩ : AttnResult).delay_countdown =
      (if (⟨⟨(0, 0, 0), "L"⟩, 0, -1, false, "L"⟩ : AttnResult).is_att_target
        then 2 + 1 else 0) - 1) ∧
    ((⟨⟨(0, 0, 1), "Z"⟩, 1, 2, true, ""⟩ : AttnResult).is_att_target = true) ∧
    (((2 : ℤ) ≤ 2) ∧
      ((⟨⟨(0, 0, 1), "Z"⟩, 1, 2, true, ""⟩ : AttnResult).delay_countdown = 2 ∧
        ∀ b ∈ attend_run (0, 0, 0) (0, 0, 1) 1 2
            [⟨1, [1], 0⟩, ⟨1, [1], 0⟩] ⟨(0, 0, 0), "Z"⟩ 0
            (⟨⟨(0, 0, 1), "Z"⟩, 1, 2, true, ""⟩ : AttnResult).delay_countdown,
          b = false)) :=
  ⟨by decide,
   (countdown_decrement_spec 1 [1] ⟨(0, 0, 0), "Z"⟩ (0, 0, 0) (0, 0, 1) 1 "X"
      ["Z", "L", "N", "T"] 0 2 0 (-4) 0 0).1 ⟨⟨(0, 0, 1), "Z"⟩, 1, 2, true, ""⟩
      (by decide),
   by decide,
   (countdown_decrement_spec 1 [1] ⟨(0, 0, 0), "Z"⟩ (0, 0, 0) (0, 0, 1) 1 "X"
      ["Z", "L", "N", "T"] 0 2 0 (-4) 0 0).2.1 ⟨⟨(0, 0, 0), "L"⟩, 0, -1, false, "L"⟩
      (by decide),
   by decide,
   by decide,
   ((countdown_decrement_spec 1 [1] ⟨(0, 0, 0), "Z"⟩ (0, 0, 0) (0, 0, 1) 1 "X"
      ["Z", "L", "N", "T"] 0 2 0 (-4) 0 0).2.2 ⟨⟨(0, 0, 1), "Z"⟩, 1, 2, true, ""⟩
      (by decide) (by decide)).1,
   fun fx3 n3 => (((countdown_decrement_spec 1 [1] ⟨(0, 0, 0), "Z"⟩ (0, 0, 0) (0, 0, 1)
      1 "X" ["Z", "L", "N", "T"] 0 2 0 (-4) 0 0).2.2
      ⟨⟨(0, 0, 1), "Z"⟩, 1, 2, true, ""⟩ (by decide) (by decide)).2
      [⟨1, [1], 0⟩, ⟨1, [1], 0⟩] ⟨(0, 0, 0), "Z"⟩ 0 (by decide)) fx3 n3⟩

theorem blocks_total_duration_nil (trial_duration : ℚ) :
    blocks_total_duration [] trial_duration = 0 := by
  rw [blocks_total_duration]
  simp

theorem blocks_total_duration_append_one (blocks : List (List Char))
    (b : List Char) (trial_duration : ℚ) :
    blocks_total_duration (blocks ++ [b]) trial_duration =
      blocks_total_duration blocks trial_duration + (b.length : ℚ) * trial_duration := by
  rw [blocks_total_duration, blocks_total_duration, List.map_append, List.sum_append]
  simp

theorem populate_phase1_sum (max_ses_seconds trial_duration : ℚ) (min_standards : ℕ)
    (chance_of_oddball : ℚ) :
    ∀ (src : List (List ℚ)) (blocks : List (List Char)) (est : ℚ),
      blocks_total_duration blocks trial_duration = est →
      blocks_total_duration
          (populate_phase1 max_ses_seconds trial_duration min_standards
            chance_of_oddball src blocks est).1 trial_duration =
        (populate_phase1 max_ses_seconds trial_duration min_standards
          chance_of_oddball src blocks est).2 := by
  intro src
  induction src with
  | nil =>
    intro blocks est h
    exact h
  | cons rands rest ih =>
    intro blocks est h
    rw [populate_phase1]
    rcases hc : create_block min_standards chance_of_oddball rands with _ | nb
    · exact h
    · dsimp only
      by_cases hfit : est + (nb.length : ℚ) * trial_duration ≤ max_ses_seconds
      · rw [if_pos hfit]
        refine ih _ _ ?_
        rw [blocks_total_duration_append_one, h]
      · rw [if_neg hfit]
        exact h

theorem populate_phase1_le (max_ses_seconds trial_duration : ℚ) (min_standards : ℕ)
    (chance_of_oddball : ℚ) :
    ∀ (src : List (List ℚ)) (blocks : List (List Char)) (est : ℚ),
      est ≤ max_ses_seconds →
      (populate_phase1 max_ses_seconds trial_duration min_standards chance_of_oddball
        src blocks est).2 ≤ max_ses_seconds := by
  intro src
  induction src with
  | nil =>
    intro blocks est h
    exact h
  | cons rands rest ih =>
    intro blocks est h
    rw [populate_phase1]
    rcases hc : create_block min_standards chance_of_oddball rands with _ | nb
    · exact h
    · dsimp only
      by_cases hfit : est + (nb.length : ℚ) * trial_duration ≤ max_ses_seconds
      · rw [if_pos hfit]
        exact ih _ _ hfit
      · rw [if_neg hfit]
        exact h

/-- C4 counterexample: at a negative session budget (max_minutes = -1)
with positive per-trial duration 1 + 1, populate_session returns no
blocks and estimated duration 0, and the total duration 0 of the
returned blocks exceeds max_minutes * 60 = -60, so the claimed budget
bound fails without a non-negativity assumption on the budget. -/
theorem populate_session_negative_budget_counterexample :
    ((0:ℚ) < 1 + 1) ∧
    populate_session (-1) 1 1 2 1 [[0]] = ([], 0) ∧
    ¬ blocks_total_duration (populate_session (-1) 1 1 2 1 [[0]]).1 (1 + 1) ≤
      (-1) * 60 := by
  have heval : populate_session (-1) 1 1 2 1 [[0]] = ([], 0) := by
    rw [populate_session]
    have hphase : populate_phase1 ((-1) * 60) (1 + 1) 2 1 [[0]] [] 0 = ([], 0) := by
      rw [populate_phase1]
      have hcb : create_block 2 1 [(0:ℚ)] = some (['s', 's', 'o']) := by decide
      rw [hcb]
      dsimp only
      rw [if_neg (by norm_num)]
    rw [hphase]
    dsimp only
    rw [if_neg ?hcond]
    case hcond =>
      rw [show ((-1:ℚ) * 60 - 0) / (1 + 1) = ((-30:ℤ):ℚ) by norm_num,
        Int.floor_intCast]
      norm_num
  refine ⟨by norm_num, heval, ?_⟩
  rw [heval]
  rw [show (([], 0) : List (List Char) × ℚ).1 = [] from rfl, blocks_total_duration_nil]
  norm_num

/-- C4 (amended): for every invocation of populate_session with a
non-negative session budget and positive attention_sec + interim_sec,
the returned estimated duration equals the total duration
sum(len(block) * (attention_sec + interim_sec)) of the returned blocks
and never exceeds max_minutes * 60, both for the phase-1 randomly
generated blocks and after the optional filler block is appended (the
budget bound needs 0 <= max_minutes, as the counterexample shows; the
sum equality holds there too). -/
theorem populate_session_within_budget
    (max_session_time_min attention_duration_sec interim_duration_sec : ℚ)
    (min_standards : ℕ) (chance_of_oddball : ℚ) (rand_src : List (List ℚ))
    (hmax : 0 ≤ max_session_time_min)
    (hdur : 0 < attention_duration_sec + interim_duration_sec) :
    blocks_total_duration
        (populate_session max_session_time_min attention_duration_sec
          interim_duration_sec min_standards chance_of_oddball rand_src).1
        (attention_duration_sec + interim_duration_sec) =
      (populate_session max_session_time_min attention_duration_sec
        interim_duration_sec min_standards chance_of_oddball rand_src).2 ∧
    (populate_session max_session_time_min attention_duration_sec
      interim_duration_sec min_standards chance_of_oddball rand_src).2 ≤
      max_session_time_min * 60 ∧
    blocks_total_duration
        (populate_phase1 (max_session_time_min * 60)
          (attention_duration_sec + interim_duration_sec) min_standards
          chance_of_oddball rand_src [] 0).1
        (attention_duration_sec + interim_duration_sec) =
      (populate_phase1 (max_session_time_min * 60)
        (attention_duration_sec + interim_duration_sec) min_standards
        chance_of_oddball rand_src [] 0).2 ∧
    (populate_phase1 (max_session_time_min * 60)
      (attention_duration_sec + interim_duration_sec) min_standards
      chance_of_oddball rand_src [] 0).2 ≤ max_session_time_min * 60 := by
  have hM0 : (0:ℚ) ≤ max_session_time_min * 60 :=
    mul_nonneg hmax (by norm_num)
  have hsum := populate_phase1_sum (max_session_time_min * 60)
    (attention_duration_sec + interim_duration_sec) min_standards chance_of_oddball
    rand_src [] 0 (blocks_total_duration_nil _)
  have hle := populate_phase1_le (max_session_time_min * 60)
    (attention_duration_sec + interim_duration_sec) min_standards chance_of_oddball
    rand_src [] 0 hM0
  have hkey : blocks_total_duration
      (populate_session max_session_time_min attention_duration_sec
        interim_duration_sec min_standards chance_of_oddball rand_src).1
      (attention_duration_sec + interim_duration_sec) =
      (populate_session max_session_time_min attention_duration_sec
        interim_duration_sec min_standards chance_of_oddball rand_src).2 ∧
      (populate_session max_session_time_min attention_duration_sec
        interim_duration_sec min_standards chance_of_oddball rand_src).2 ≤
      max_session_time_min * 60 := by
    rw [populate_session]
    dsimp only
    split_ifs with hif
    · dsimp only
      have hnn : (0:ℤ) ≤
          ⌊(max_session_time_min * 60 -
            (populate_phase1 (max_session_time_min * 60)
              (attention_duration_sec + interim_duration_sec) min_standards
              chance_of_oddball rand_src [] 0).2) /
            (attention_duration_sec + interim_duration_sec)⌋ - 1 := by
        omega
      have hz : (((⌊(max_session_time_min * 60 -
          (populate_phase1 (max_session_time_min * 60)
            (attention_duration_sec + interim_duration_sec) min_standards
            chance_of_oddball rand_src [] 0).2) /
          (attention_duration_sec + interim_duration_sec)⌋ - 1).toNat + 1 : ℕ) : ℤ) =
          ⌊(max_session_time_min * 60 -
            (populate_phase1 (max_session_time_min * 60)
              (attention_duration_sec + interim_duration_sec) min_standards
              chance_of_oddball rand_src [] 0).2) /
            (attention_duration_sec + interim_duration_sec)⌋ := by
        rw [Nat.cast_add, Int.toNat_of_nonneg hnn]
        simp
      have hlenq : ((List.replicate
          (⌊(max_session_time_min * 60 -
            (populate_phase1 (max_session_time_min * 60)
              (attention_duration_sec + interim_duration_sec) min_standards
              chance_of_oddball rand_src [] 0).2) /
            (attention_duration_sec + interim_duration_sec)⌋ - 1).toNat 's' ++
          ['o']).length : ℚ) =
          ((⌊(max_session_time_min * 60 -
            (populate_phase1 (max_session_time_min * 60)
              (attention_duration_sec + interim_duration_sec) min_standards
              chance_of_oddball rand_src [] 0).2) /
            (attention_duration_sec + interim_duration_sec)⌋ : ℤ) : ℚ) := by
        rw [List.length_append, List.length_replicate,
          show (['o'] : List Char).length = 1 from rfl]
        exact_mod_cast congrArg (fun z : ℤ => (z : ℚ)) hz
      constructor
      · rw [blocks_total_duration_append_one, hsum]
      · rw [hlenq]
        have hfl := Int.floor_le ((max_session_time_min * 60 -
          (populate_phase1 (max_session_time_min * 60)
            (attention_duration_sec + interim_duration_sec) min_standards
            chance_of_oddball rand_src [] 0).2) /
          (attention_duration_sec + interim_duration_sec))
        have hmul : ((⌊(max_session_time_min * 60 -
            (populate_phase1 (max_session_time_min * 60)
              (attention_duration_sec + interim_duration_sec) min_standards
              chance_of_oddball rand_src [] 0).2) /
            (attention_duration_sec + interim_duration_sec)⌋ : ℤ) : ℚ) *
            (attention_duration_sec + interim_duration_sec) ≤
            max_session_time_min * 60 -
              (populate_phase1 (max_session_time_min * 60)
                (attention_duration_sec + interim_duration_sec) min_standards
                chance_of_oddball rand_src [] 0).2 :=
          (le_div_iff₀ hdur).mp hfl
        linarith
    · exact ⟨hsum, hle⟩
  exact ⟨hkey.1, hkey.2, hsum, hle⟩

theorem populate_session_within_budget_witness :
    ((0:ℚ) ≤ 0) ∧ ((0:ℚ) < 1 + 0) ∧
    (blocks_total_duration (populate_session 0 1 0 0 1 []).1 (1 + 0) =
        (populate_session 0 1 0 0 1 []).2 ∧
      (populate_session 0 1 0 0 1 []).2 ≤ 0 * 60 ∧
      blocks_total_duration (populate_phase1 (0 * 60) (1 + 0) 0 1 [] [] 0).1 (1 + 0) =
        (populate_phase1 (0 * 60) (1 + 0) 0 1 [] [] 0).2 ∧
      (populate_phase1 (0 * 60) (1 + 0) 0 1 [] [] 0).2 ≤ 0 * 60) :=
  ⟨by decide, by simp,
    populate_session_within_budget 0 1 0 0 1 [] (by decide) (by simp)⟩

end LCPupil
